import Mathlib

/-!
Shallow embedding of the two control-flow components of
`parlai/utils/testing.py`: the `retry` decorator (lines 125-163) and the
`timeout` context manager (lines 255-279).

Exceptions are modelled as an explicit `Exn` kind; a call of the wrapped
test function is modelled as a function from the invocation index to an
`Outcome` (value or raised exception), which captures the statefulness of
a flaky test. The wrapped operation additionally reports how many times
the underlying test function was invoked.

The signal facility used by `timeout` is modelled as the POSIX state it
manipulates: the installed `SIGALRM` disposition and the pending alarm
(in whole seconds; `none` means disarmed). `signal.alarm t` replaces the
pending alarm, and `signal.alarm 0` cancels it; delivery of `SIGALRM`
consumes the pending alarm and acts according to the installed
disposition.
-/

namespace ParlAITesting

/-- Kinds of exceptions relevant to `retry` and `timeout`:
`assertionFailure` is `testself.failureException`, `timeoutError` is the
builtin `TimeoutError` raised by the alarm handler, `other` is any other
exception (tagged by a code), and `sigKilled` marks default `SIGALRM`
disposition terminating the process. -/
inductive Exn where
  | assertionFailure
  | timeoutError
  | other (code : Nat)
  | sigKilled
deriving DecidableEq, Repr

/-- Result of one invocation of a test function: a normal return value or
a raised exception. -/
inductive Outcome (α : Type) where
  | ok (v : α)
  | fail (e : Exn)
deriving DecidableEq, Repr

/-- The `retry` decorator class: `ntries` (default 3) and `log_retry`
(default false). `log_retry` only controls a debug log line and has no
semantic effect. -/
structure retry where
  ntries : Int
  log_retry : Bool
deriving DecidableEq, Repr

/-- The loop body of `_wrapper`: `n` remaining iterations of
`for _ in range(self.ntries - 1)` guarded by
`except testself.failureException`, starting at invocation index `i`;
when the loop is exhausted the final call is made uncaught
(`return testfn(testself, *args, **kwargs)` after the loop). Returns the
observed outcome together with the total number of invocations made. -/
def retryGo (testfn : Nat → Outcome α) : Nat → Nat → Outcome α × Nat
  | 0, i => (testfn i, i + 1)
  | n + 1, i =>
    match testfn i with
    | .ok v => (.ok v, i + 1)
    | .fail .assertionFailure => retryGo testfn n (i + 1)
    | .fail e => (.fail e, i + 1)

/-- `retry.__call__`: wraps `testfn`; the wrapped operation receives the
same argument `testself` on every attempt. In Python,
`range(self.ntries - 1)` is empty whenever `ntries <= 1`, which
`Int.toNat` captures. -/
def retry.call (r : retry) (testfn : σ → Nat → Outcome α) (testself : σ) :
    Outcome α × Nat :=
  retryGo (testfn testself) (r.ntries - 1).toNat 0

/-- A `SIGALRM` disposition: the default action, ignore, or the Python
`_handler` installed by `timeout` (which raises `TimeoutError`). -/
inductive Handler where
  | sigDfl
  | sigIgn
  | pyHandler
deriving DecidableEq, Repr

/-- The process signal state manipulated by `timeout`: the installed
`SIGALRM` disposition and the pending alarm in seconds (`none` =
disarmed). -/
structure SigState where
  handler : Handler
  alarm : Option Nat
deriving DecidableEq, Repr

/-- `signal.signal(signal.SIGALRM, h)`: replaces the disposition. -/
def signalSignal (h : Handler) (s : SigState) : SigState :=
  ⟨h, s.alarm⟩

/-- `signal.alarm(t)`: replaces any pending alarm; `alarm(0)` cancels the
pending alarm without arming a new one (POSIX `alarm(2)` semantics, which
Python's `signal.alarm` wraps directly). -/
def signalAlarm (t : Nat) (s : SigState) : SigState :=
  ⟨s.handler, if t = 0 then none else some t⟩

/-- A guarded block of work: it needs `duration` seconds to complete on
its own, in which case it produces `outcome`; `catchesTimeout` records
whether the block itself catches a `TimeoutError` raised inside it (in
which case it runs to completion anyway). -/
structure Block (α : Type) where
  duration : Nat
  outcome : Outcome α
  catchesTimeout : Bool
deriving DecidableEq, Repr

/-- Execution of a block under a signal state. If an alarm is pending and
fires no later than the block would complete, `SIGALRM` is delivered
(consuming the alarm) and handled per the installed disposition:
`pyHandler` raises `TimeoutError` at the active execution point
(interrupting the block unless it catches it), `sigIgn` ignores it, and
`sigDfl` terminates the process. Otherwise the block completes with its
own outcome and the pending alarm keeps counting down. -/
def runBlock (s : SigState) (b : Block α) : Outcome α × SigState :=
  match s.alarm with
  | some t =>
    if t ≤ b.duration then
      match s.handler with
      | .pyHandler =>
        if b.catchesTimeout then (b.outcome, ⟨s.handler, none⟩)
        else (.fail .timeoutError, ⟨s.handler, none⟩)
      | .sigIgn => (b.outcome, ⟨s.handler, none⟩)
      | .sigDfl => (.fail .sigKilled, ⟨s.handler, none⟩)
    else (b.outcome, ⟨s.handler, some (t - b.duration)⟩)
  | none => (b.outcome, s)

/-- The body of `timeout` after its `assert`: install `_handler` for
`SIGALRM`, arm the alarm, run the block; `except TimeoutError as e:
raise e` re-raises unchanged, and the `finally` clause sets the `SIGALRM`
disposition to `SIG_IGN` on every exit path (it does not cancel the
alarm and does not restore the prior disposition). -/
def timeoutBody (time : Int) (b : Block α) (s : SigState) :
    Outcome α × SigState :=
  let s2 := signalAlarm time.toNat (signalSignal .pyHandler s)
  let r := runBlock s2 b
  (r.1, signalSignal .sigIgn r.2)

/-- The `timeout` context manager around a block: first
`assert time >= 0` (an `AssertionError` leaves the signal state
untouched), then `timeoutBody`. -/
def timeout (time : Int) (b : Block α) (s : SigState) :
    Outcome α × SigState :=
  if time < 0 then (.fail .assertionFailure, s)
  else timeoutBody time b s

/-! Step lemmas for `retryGo`. -/

theorem retryGo_zero (testfn : Nat → Outcome α) (i : Nat) :
    retryGo testfn 0 i = (testfn i, i + 1) := rfl

theorem retryGo_succ_ok (testfn : Nat → Outcome α) (n i : Nat) (v : α)
    (h : testfn i = .ok v) :
    retryGo testfn (n + 1) i = (.ok v, i + 1) := by
  simp [retryGo, h]

theorem retryGo_succ_af (testfn : Nat → Outcome α) (n i : Nat)
    (h : testfn i = .fail .assertionFailure) :
    retryGo testfn (n + 1) i = retryGo testfn n (i + 1) := by
  simp [retryGo, h]

theorem retryGo_succ_other (testfn : Nat → Outcome α) (n i : Nat) (e : Exn)
    (h : testfn i = .fail e) (he : e ≠ Exn.assertionFailure) :
    retryGo testfn (n + 1) i = (.fail e, i + 1) := by
  cases e with
  | assertionFailure => exact absurd rfl he
  | timeoutError => simp [retryGo, h]
  | other c => simp [retryGo, h]
  | sigKilled => simp [retryGo, h]

/-- If the next `m` invocations starting at index `i` raise the assertion
failure, invocation `i + m` succeeds with `v`, and the loop budget `n` is
at least `m`, then the loop returns `v` after `m + 1` further
invocations. -/
theorem retryGo_ok_of (testfn : Nat → Outcome α) (v : α) :
    ∀ m n i, m ≤ n →
      (∀ d, d < m → testfn (i + d) = .fail .assertionFailure) →
      testfn (i + m) = .ok v →
      retryGo testfn n i = (.ok v, i + m + 1) := by
  intro m
  induction m with
  | zero =>
    intro n i _ _ hok
    rw [Nat.add_zero] at hok
    cases n with
    | zero => rw [retryGo_zero, hok]
    | succ n => rw [retryGo_succ_ok testfn n i v hok]
  | succ m ih =>
    intro n i hmn hfail hok
    cases n with
    | zero => omega
    | succ n =>
      have h0 : testfn i = .fail .assertionFailure := by
        have h := hfail 0 (Nat.succ_pos m)
        rwa [Nat.add_zero] at h
      have hfail2 : ∀ d, d < m → testfn (i + 1 + d) = .fail .assertionFailure := by
        intro d hd
        have h := hfail (d + 1) (by omega)
        rwa [show i + (d + 1) = i + 1 + d by omega] at h
      have hok2 : testfn (i + 1 + m) = .ok v := by
        rwa [show i + (m + 1) = i + 1 + m by omega] at hok
      rw [retryGo_succ_af testfn n i h0, ih n (i + 1) (by omega) hfail2 hok2,
        show i + 1 + m + 1 = i + (m + 1) + 1 by omega]

/-- If every invocation the loop can reach raises the assertion failure,
the loop exhausts its budget and the final uncaught call raises it. -/
theorem retryGo_af_all (testfn : Nat → Outcome α) :
    ∀ n i, (∀ d, d ≤ n → testfn (i + d) = .fail .assertionFailure) →
      retryGo testfn n i = (.fail .assertionFailure, i + n + 1) := by
  intro n
  induction n with
  | zero =>
    intro i h
    have h0 := h 0 (Nat.le_refl 0)
    rw [Nat.add_zero] at h0
    rw [retryGo_zero, h0]
  | succ n ih =>
    intro i h
    have h0 := h 0 (Nat.zero_le _)
    rw [Nat.add_zero] at h0
    have h2 : ∀ d, d ≤ n → testfn (i + 1 + d) = .fail .assertionFailure := by
      intro d hd
      have hx := h (d + 1) (by omega)
      rwa [show i + (d + 1) = i + 1 + d by omega] at hx
    rw [retryGo_succ_af testfn n i h0, ih (i + 1) h2,
      show i + 1 + n + 1 = i + (n + 1) + 1 by omega]

/-- If the first non-assertion outcome arrives at invocation `i + m`
within the budget, it is returned at once after `m + 1` further
invocations. -/
theorem retryGo_other_of (testfn : Nat → Outcome α) (e : Exn)
    (he : e ≠ Exn.assertionFailure) :
    ∀ m n i, m ≤ n →
      (∀ d, d < m → testfn (i + d) = .fail .assertionFailure) →
      testfn (i + m) = .fail e →
      retryGo testfn n i = (.fail e, i + m + 1) := by
  intro m
  induction m with
  | zero =>
    intro n i _ _ hend
    rw [Nat.add_zero] at hend
    cases n with
    | zero => rw [retryGo_zero, hend]
    | succ n => rw [retryGo_succ_other testfn n i e hend he]
  | succ m ih =>
    intro n i hmn hfail hend
    cases n with
    | zero => omega
    | succ n =>
      have h0 : testfn i = .fail .assertionFailure := by
        have h := hfail 0 (Nat.succ_pos m)
        rwa [Nat.add_zero] at h
      have hfail2 : ∀ d, d < m → testfn (i + 1 + d) = .fail .assertionFailure := by
        intro d hd
        have h := hfail (d + 1) (by omega)
        rwa [show i + (d + 1) = i + 1 + d by omega] at h
      have hend2 : testfn (i + 1 + m) = .fail e := by
        rwa [show i + (m + 1) = i + 1 + m by omega] at hend
      rw [retryGo_succ_af testfn n i h0, ih n (i + 1) (by omega) hfail2 hend2,
        show i + 1 + m + 1 = i + (m + 1) + 1 by omega]

/-- Whatever the loop returns, it is the outcome of some invocation of
the test function, and the invocation count is that index plus one. -/
theorem retryGo_result (testfn : Nat → Outcome α) :
    ∀ n i, ∃ j, retryGo testfn n i = (testfn j, j + 1) := by
  intro n
  induction n with
  | zero => intro i; exact ⟨i, retryGo_zero testfn i⟩
  | succ n ih =>
    intro i
    cases h : testfn i with
    | ok v => exact ⟨i, by rw [retryGo_succ_ok testfn n i v h, h]⟩
    | fail e =>
      cases e with
      | assertionFailure =>
        obtain ⟨j, hj⟩ := ih (i + 1)
        exact ⟨j, by rw [retryGo_succ_af testfn n i h]; exact hj⟩
      | timeoutError =>
        exact ⟨i, by rw [retryGo_succ_other testfn n i _ h (by simp), h]⟩
      | other c =>
        exact ⟨i, by rw [retryGo_succ_other testfn n i _ h (by simp), h]⟩
      | sigKilled =>
        exact ⟨i, by rw [retryGo_succ_other testfn n i _ h (by simp), h]⟩

/-- Claim C1: for every `ntries = N >= 1` and an operation raising the
assertion failure on exactly its first `k` invocations and then returning
`v`: if `k < N` the wrapped call returns `v` after exactly `k + 1`
invocations; if `k >= N` it raises the assertion failure after exactly
`N` invocations; for `N = 1` there is exactly one invocation whose
outcome is returned uncaught. -/
theorem retry_attempt_budget (N : Int) (r : retry) (testfn : σ → Nat → Outcome α)
    (testself : σ) (k : Nat) (v : α)
    (hN : 1 ≤ N) (hr : r.ntries = N)
    (hfail : ∀ i, i < k → testfn testself i = .fail .assertionFailure)
    (hsucc : testfn testself k = .ok v) :
    (k < N.toNat → r.call testfn testself = (.ok v, k + 1)) ∧
    (N.toNat ≤ k → r.call testfn testself = (.fail .assertionFailure, N.toNat)) ∧
    (N = 1 → r.call testfn testself = (testfn testself 0, 1)) := by
  unfold retry.call
  rw [hr]
  refine ⟨?_, ?_, ?_⟩
  · intro hk
    have h := retryGo_ok_of (testfn testself) v k (N - 1).toNat 0 (by omega)
      (fun d hd => by simpa using hfail d hd) (by simpa using hsucc)
    simpa using h
  · intro hk
    have h := retryGo_af_all (testfn testself) (N - 1).toNat 0
      (fun d hd => by
        have hdk : d < k := by omega
        simpa using hfail d hdk)
    rw [h, show 0 + (N - 1).toNat + 1 = N.toNat by omega]
  · intro h1
    subst h1
    rw [show ((1 : Int) - 1).toNat = 0 by decide, retryGo_zero]

/-- Witness for C1 at `N = 3`, `k = 2`: two assertion failures then
success gives the success value after three invocations. -/
theorem retry_attempt_budget_witness :
    (retry.mk 3 false).call
      (fun (_ : Unit) i => if i < 2 then (.fail .assertionFailure : Outcome Nat) else .ok 7)
      () = (.ok 7, 3) := by
  have h := retry_attempt_budget 3 (retry.mk 3 false)
    (fun (_ : Unit) i => if i < 2 then (.fail .assertionFailure : Outcome Nat) else .ok 7)
    () 2 7 (by decide) rfl (by decide) (by decide)
  exact h.1 (by decide)

/-- Claim C5: a failure of any kind other than the assertion failure
propagates at the attempt on which it occurs, with no further
invocation; in particular an operation that always raises another
failure is invoked exactly once for any `ntries`. -/
theorem retry_no_retry_on_other (r : retry) (testfn : σ → Nat → Outcome α)
    (testself : σ) (m : Nat) (e : Exn)
    (he : e ≠ Exn.assertionFailure)
    (hm : m ≤ (r.ntries - 1).toNat)
    (hfail : ∀ d, d < m → testfn testself d = .fail .assertionFailure)
    (hother : testfn testself m = .fail e) :
    r.call testfn testself = (.fail e, m + 1) := by
  unfold retry.call
  have h := retryGo_other_of (testfn testself) e he m (r.ntries - 1).toNat 0 hm
    (fun d hd => by simpa using hfail d hd) (by simpa using hother)
  simpa using h

/-- Witness for C5: an operation that always raises `other 9`, wrapped
with `ntries = 5`, raises `other 9` after exactly one invocation. -/
theorem retry_no_retry_on_other_witness :
    (retry.mk 5 false).call
      (fun (_ : Unit) _ => (.fail (.other 9) : Outcome Nat)) () = (.fail (.other 9), 1) := by
  have h := retry_no_retry_on_other (retry.mk 5 false)
    (fun (_ : Unit) _ => (.fail (.other 9) : Outcome Nat)) () 0 (.other 9)
    (by decide) (by decide) (by decide) rfl
  exact h

/-- Claim C9: the outcome observed by the caller of the wrapped operation
is always the underlying operation's own outcome on its final invocation
(applied to the same argument the wrapper received), never anything
originating in the wrapper, and the invocation count is that final index
plus one. -/
theorem retry_result_from_operation (r : retry) (testfn : σ → Nat → Outcome α)
    (testself : σ) :
    ∃ j, r.call testfn testself = (testfn testself j, j + 1) :=
  retryGo_result (testfn testself) (r.ntries - 1).toNat 0

/-- Claim C10: `ntries` is never validated: for every `ntries <= 1`,
including 0 and negatives, the retry loop body runs zero times, the
operation is invoked exactly once with its outcome propagating uncaught,
identically to `ntries = 1`. -/
theorem retry_no_ntries_validation (r : retry) (testfn : σ → Nat → Outcome α)
    (testself : σ) (h : r.ntries ≤ 1) :
    r.call testfn testself = (testfn testself 0, 1) ∧
    r.call testfn testself = (retry.mk 1 r.log_retry).call testfn testself := by
  have h0 : (r.ntries - 1).toNat = 0 := by omega
  unfold retry.call
  rw [h0, show ((1 : Int) - 1).toNat = 0 by decide, retryGo_zero]
  exact ⟨rfl, rfl⟩

/-- Witness for C10 at `ntries = -2`: one uncaught invocation, same as
`ntries = 1`. -/
theorem retry_no_ntries_validation_witness :
    (retry.mk (-2) false).call
      (fun (_ : Unit) _ => (.fail (.other 1) : Outcome Nat)) () = (.fail (.other 1), 1) ∧
    (retry.mk (-2) false).call
      (fun (_ : Unit) _ => (.fail (.other 1) : Outcome Nat)) ()
      = (retry.mk 1 false).call
        (fun (_ : Unit) _ => (.fail (.other 1) : Outcome Nat)) () := by
  have h := retry_no_ntries_validation (retry.mk (-2) false)
    (fun (_ : Unit) _ => (.fail (.other 1) : Outcome Nat)) () (by decide)
  exact ⟨h.1, h.2⟩

/-- For a nonnegative duration the guard's result does not depend on the
incoming signal state: entry overwrites both the disposition
(`signal.signal`) and the pending alarm (`signal.alarm`). -/
theorem timeout_state_independent (time : Int) (b : Block α) (s t : SigState)
    (h : 0 ≤ time) :
    timeout time b s = timeout time b t := by
  simp [timeout, not_lt.mpr h, timeoutBody, signalSignal, signalAlarm]

/-- Claim C2 counterexample: with duration 0 and a long-running block,
the guard returns the block's own value; it does not raise
`TimeoutError`. -/
theorem timeout_zero_counterexample :
    (timeout 0 (Block.mk 1000 (.ok (42 : Nat)) false) (SigState.mk .sigDfl none)).1
      = .ok 42 ∧
    (Outcome.ok (42 : Nat)) ≠ .fail .timeoutError := by decide

/-- Claim C2 amended: with duration 0, `signal.alarm(0)` cancels the
countdown, so the block runs with no deadline at all and the guard
returns the block's own outcome; a duration of 0 disables the deadline
rather than expiring immediately. The exit state has the handler set to
`SIG_IGN` and no alarm pending. -/
theorem timeout_zero_disables_deadline (b : Block α) (s : SigState) :
    timeout 0 b s = (b.outcome, SigState.mk .sigIgn none) := by
  simp [timeout, timeoutBody, signalSignal, signalAlarm, runBlock]

/-- Claim C3 counterexample: after a guard with duration 30 around a
block finishing in 5 units, the pending alarm is still armed with 25
units remaining; the countdown is not disarmed by the teardown. -/
theorem timeout_teardown_counterexample :
    (timeout 30 (Block.mk 5 (.ok (0 : Nat)) false) (SigState.mk .sigDfl none)).2
      = SigState.mk .sigIgn (some 25) ∧
    some 25 ≠ (none : Option Nat) := by decide

/-- Claim C3 amended: on every exit path of a guard with nonnegative
duration, the teardown runs and sets the `SIGALRM` disposition to
`SIG_IGN`; the countdown itself may remain armed, but any later delivery
is ignored, and a subsequent independent guard with any nonnegative
duration behaves from the leftover state exactly as it would from the
original state, because its entry overwrites both the disposition and
the alarm. -/
theorem timeout_teardown_all_paths (time : Int) (b : Block α) (s : SigState)
    (h : 0 ≤ time) :
    (timeout time b s).2.handler = Handler.sigIgn ∧
    (∀ (u : Int) (b2 : Block β), 0 ≤ u →
      timeout u b2 (timeout time b s).2 = timeout u b2 s) := by
  refine ⟨?_, ?_⟩
  · simp [timeout, not_lt.mpr h, timeoutBody, signalSignal]
  · intro u b2 hu
    exact timeout_state_independent u b2 _ s hu

/-- Witness for C3 with duration 30 around a 5-unit block: the handler is
`SIG_IGN` afterwards, and a second guard of duration 7 from the leftover
state equals the same guard from the original state. -/
theorem timeout_teardown_all_paths_witness :
    (timeout 30 (Block.mk 5 (.ok (0 : Nat)) false) (SigState.mk .sigDfl none)).2.handler
      = Handler.sigIgn ∧
    timeout 7 (Block.mk 2 (.ok (1 : Nat)) false)
        ((timeout 30 (Block.mk 5 (.ok (0 : Nat)) false) (SigState.mk .sigDfl none)).2)
      = timeout 7 (Block.mk 2 (.ok (1 : Nat)) false) (SigState.mk .sigDfl none) := by
  refine ⟨(@timeout_teardown_all_paths Nat Nat 30 (Block.mk 5 (.ok 0) false)
      (SigState.mk .sigDfl none) (by decide)).1,
    (@timeout_teardown_all_paths Nat Nat 30 (Block.mk 5 (.ok 0) false)
      (SigState.mk .sigDfl none) (by decide)).2 7 _ (by decide)⟩

/-- Claim C4 counterexample: the prior `SIGALRM` disposition was the
default action, the block finished well before the 30-unit deadline, yet
after the guard the disposition is `SIG_IGN`, not the prior one. -/
theorem timeout_restore_counterexample :
    (timeout 30 (Block.mk 5 (.ok (0 : Nat)) false) (SigState.mk Handler.sigDfl none)).2.handler
      = Handler.sigIgn ∧
    Handler.sigIgn ≠ Handler.sigDfl := by decide

/-- Claim C4 amended: when the block completes (normally or with any
failure) before the countdown fires, the guard's exit sets the `SIGALRM`
disposition to `SIG_IGN` regardless of the disposition in effect before
entry; the prior handler state is not restored, so the guard does have
an observable effect whenever that prior disposition was not
`SIG_IGN`. -/
theorem timeout_sets_sig_ign (time : Int) (b : Block α) (s : SigState)
    (h : 0 ≤ time) (_hd : time.toNat = 0 ∨ b.duration < time.toNat) :
    (timeout time b s).2.handler = Handler.sigIgn := by
  simp [timeout, not_lt.mpr h, timeoutBody, signalSignal]

/-- Witness for C4 with a prior `pyHandler` disposition and a block
finishing before the deadline: the exit disposition is `SIG_IGN`. -/
theorem timeout_sets_sig_ign_witness :
    (timeout 30 (Block.mk 5 (.ok (0 : Nat)) false) (SigState.mk .pyHandler (some 3))).2.handler
      = Handler.sigIgn :=
  timeout_sets_sig_ign 30 _ _ (by decide) (Or.inr (by decide))

/-- Claim C6: a block that raises a failure other than the timeout
failure before the deadline would fire propagates that original failure
unchanged out of the guard; it is not replaced by a timeout failure. -/
theorem timeout_propagates_unrelated (time : Int) (b : Block α) (s : SigState)
    (e : Exn) (ht : 0 ≤ time) (hd : b.duration < time.toNat)
    (hb : b.outcome = .fail e) (_he : e ≠ Exn.timeoutError) :
    (timeout time b s).1 = .fail e := by
  have hne : time.toNat ≠ 0 := by omega
  simp [timeout, not_lt.mpr ht, timeoutBody, signalSignal, signalAlarm, hne,
    runBlock, Nat.not_le.mpr hd, hb]

/-- Witness for C6: a block raising `other 3` at 5 units under a 10-unit
deadline propagates `other 3`. -/
theorem timeout_propagates_unrelated_witness :
    (timeout 10 (Block.mk 5 (Outcome.fail (Exn.other 3) : Outcome Nat) false)
      (SigState.mk .sigDfl none)).1 = .fail (.other 3) :=
  timeout_propagates_unrelated 10 _ _ (.other 3) (by decide) (by decide) rfl (by decide)

/-- Claim C7: when the countdown expires while the block is still
running, the guard raises the dedicated `TimeoutError`, a kind distinct
from the assertion-failure kind that `retry` recovers; it propagates to
the caller unless the block itself catches it, and is never swallowed by
the guard. -/
theorem timeout_raises_dedicated (time : Int) (b : Block α) (s : SigState)
    (ht : 1 ≤ time) (hd : time.toNat ≤ b.duration) :
    (b.catchesTimeout = false → (timeout time b s).1 = .fail Exn.timeoutError) ∧
    Exn.timeoutError ≠ Exn.assertionFailure ∧
    (b.catchesTimeout = true → (timeout time b s).1 = b.outcome) := by
  have h0 : ¬ time < 0 := by omega
  have hne : time.toNat ≠ 0 := by omega
  refine ⟨?_, by decide, ?_⟩
  · intro hc
    simp [timeout, h0, timeoutBody, signalSignal, signalAlarm, hne, runBlock, hd, hc]
  · intro hc
    simp [timeout, h0, timeoutBody, signalSignal, signalAlarm, hne, runBlock, hd, hc]

/-- Witness for C7: a 1-unit deadline over a 5-unit block raises
`TimeoutError`. -/
theorem timeout_raises_dedicated_witness :
    (timeout 1 (Block.mk 5 (.ok (0 : Nat)) false) (SigState.mk .sigDfl none)).1
      = .fail Exn.timeoutError :=
  (timeout_raises_dedicated 1 _ _ (by decide) (by decide)).1 rfl

/-- Claim C8: a negative duration makes the guard fail with the
assertion failure before any handler is installed or any countdown is
armed (the signal state is returned untouched); for any nonnegative
duration the precondition passes and the guard proceeds to its body. -/
theorem timeout_nonneg_precondition (time : Int) (b : Block α) (s : SigState) :
    (time < 0 → timeout time b s = (.fail .assertionFailure, s)) ∧
    (0 ≤ time → timeout time b s = timeoutBody time b s) := by
  constructor
  · intro h
    simp [timeout, h]
  · intro h
    simp [timeout, not_lt.mpr h]

/-- Witness for C8 at durations -1 and 3. -/
theorem timeout_nonneg_precondition_witness :
    timeout (-1) (Block.mk 5 (.ok (0 : Nat)) false) (SigState.mk .sigDfl (some 4))
      = (.fail .assertionFailure, SigState.mk .sigDfl (some 4)) ∧
    timeout 3 (Block.mk 5 (.ok (0 : Nat)) false) (SigState.mk .sigDfl none)
      = timeoutBody 3 (Block.mk 5 (.ok (0 : Nat)) false) (SigState.mk .sigDfl none) :=
  ⟨(timeout_nonneg_precondition (-1) _ _).1 (by decide),
   (timeout_nonneg_precondition 3 _ _).2 (by decide)⟩

end ParlAITesting
